import Mathlib

/-!
Formal model of the data-cleaning and summary-metrics pipeline of the
air-quality dashboard (src/analysis.py).

Pandas DataFrames are modelled column-wise: a frame is a list of named
columns, each a list of cells.  A cell is a Python-level value: a raw
string, a number (rationals stand in for the finitely-represented floats
and ints that occur in the pipeline), the absent marker (NaN / NaT /
None), a parsed calendar date, a parsed time-of-day, or a combined
timestamp.  Python exceptions are modelled with Except and an error type
distinguishing KeyError, ValueError and TypeError.

Dates are encoded as y*10000 + m*100 + d and times as h*10000 + m*100 + s,
so that numeric order on the encoding coincides with calendar order.
-/

inductive Cell where
  | str (s : String)
  | num (q : ℚ)
  | nan
  | date (d : Nat)
  | time (t : Nat)
  | datetime (d t : Nat)
deriving DecidableEq, Repr

inductive PyError where
  | keyError (k : String)
  | valueError (msg : String)
  | typeError (msg : String)
deriving DecidableEq, Repr

/-- Discriminator for the KeyError constructor. -/
def PyError.isKeyError : PyError → Bool
  | .keyError _ => true
  | .valueError _ => false
  | .typeError _ => false

/-- A cell is non-absent (pandas notna): everything except NaN/NaT/None. -/
def Cell.notna : Cell → Bool
  | .nan => false
  | .str _ => true
  | .num _ => true
  | .date _ => true
  | .time _ => true
  | .datetime _ _ => true

/-- Split a character list on a separator character (like Python split). -/
def splitOnChar (sep : Char) : List Char → List (List Char)
  | [] => [[]]
  | c :: cs =>
      let r := splitOnChar sep cs
      if c = sep then [] :: r
      else
        match r with
        | [] => [[c]]
        | h :: t => (c :: h) :: t

def allDigits (l : List Char) : Bool := l.all Char.isDigit

def digitsVal (l : List Char) : Nat := l.foldl (fun a c => a * 10 + (c.toNat - 48)) 0

def isLeap (y : Nat) : Bool := (y % 4 == 0 && y % 100 != 0) || y % 400 == 0

def daysInMonth (y m : Nat) : Nat :=
  if m = 2 then (if isLeap y then 29 else 28)
  else if m = 4 ∨ m = 6 ∨ m = 9 ∨ m = 11 then 30
  else 31

/-- Strict parse of a date string under the fixed pattern d/m/Y, as
pd.to_datetime(-, format=...) does: day and month are 1 or 2 digits,
year up to 4 digits, and the day must exist in the given month/year.
Returns the encoding y*10000 + m*100 + d. -/
def parseDate (s : String) : Option Nat :=
  match splitOnChar '/' s.toList with
  | [d, m, y] =>
      if allDigits d ∧ allDigits m ∧ allDigits y ∧
         d ≠ [] ∧ d.length ≤ 2 ∧ m ≠ [] ∧ m.length ≤ 2 ∧ y ≠ [] ∧ y.length ≤ 4 then
        let dn := digitsVal d
        let mn := digitsVal m
        let yn := digitsVal y
        if 1 ≤ mn ∧ mn ≤ 12 ∧ 1 ≤ dn ∧ dn ≤ daysInMonth yn mn then
          some (yn * 10000 + mn * 100 + dn)
        else none
      else none
  | _ => none

/-- Strict parse of a time string under the fixed pattern H.M.S (the
separator is a literal period, a quirk of the source dataset).  Returns
the encoding h*10000 + m*100 + s. -/
def parseTime (s : String) : Option Nat :=
  match splitOnChar '.' s.toList with
  | [h, m, sec] =>
      if allDigits h ∧ allDigits m ∧ allDigits sec ∧
         h ≠ [] ∧ h.length ≤ 2 ∧ m ≠ [] ∧ m.length ≤ 2 ∧ sec ≠ [] ∧ sec.length ≤ 2 then
        let hn := digitsVal h
        let mn := digitsVal m
        let sn := digitsVal sec
        if hn ≤ 23 ∧ mn ≤ 59 ∧ sn ≤ 59 then
          some (hn * 10000 + mn * 100 + sn)
        else none
      else none
  | _ => none

/-- Decimal-literal parse of an unsigned number: digits with at most one
decimal point and at least one digit on one side. -/
def parseUnsigned (l : List Char) : Option ℚ :=
  match splitOnChar '.' l with
  | [ip] => if ip ≠ [] ∧ allDigits ip then some (digitsVal ip) else none
  | [ip, fp] =>
      if allDigits ip ∧ allDigits fp ∧ (ip ≠ [] ∨ fp ≠ []) then
        some ((digitsVal ip : ℚ) + (digitsVal fp : ℚ) / ((10 : ℚ) ^ fp.length))
      else none
  | _ => none

/-- Models pd.to_numeric on a decimal string: an optional sign followed by
a decimal literal.  (Scientific notation and surrounding whitespace, which
never occur in this dataset, are not modelled.) -/
def parseFloat (s : String) : Option ℚ :=
  match s.toList with
  | [] => none
  | '-' :: rest => (parseUnsigned rest).map (fun q => -q)
  | '+' :: rest => parseUnsigned rest
  | l => parseUnsigned l

/-- Models Series.str.replace applied with a one-character pattern: every
comma becomes a dot. -/
def commaToDot (s : String) : String :=
  String.mk (s.toList.map (fun c => if c = ',' then '.' else c))

/-- One cell of df.replace(-200, np.nan) [analysis.py line 55]: pandas
replace matches by object equality, so only the number -200 (int or
float) is replaced; the TEXT "-200" is a different object and survives. -/
def replaceCell (c : Cell) : Cell :=
  if c = .num (-200) then .nan else c

/-- One cell of the composite astype(str) + str.replace + to_numeric with
errors=coerce [analysis.py lines 80-81].  A number round-trips through
its repr string unchanged; NaN prints as "nan" and coerces back to NaN;
a raw string gets its commas replaced and is parsed, with parse failure
coerced to NaN; the string form of a date, time or timestamp never
parses as a number, so those coerce to NaN. -/
def numericCoerce : Cell → Cell
  | .str s =>
      match parseFloat (commaToDot s) with
      | some q => .num q
      | none => .nan
  | .num q => .num q
  | .nan => .nan
  | .date _ => .nan
  | .time _ => .nan
  | .datetime _ _ => .nan

/-- One cell of pd.to_datetime(-, format=d/m/Y) on the Date column
[analysis.py line 58].  Strings are parsed strictly, failure RAISES
(the call has the default errors=raise); NaN passes through as NaT;
already-converted datetime64 values pass through; a datetime.time object
or a number is not convertible and raises TypeError. -/
def dateConvCell : Cell → Except PyError Cell
  | .str s =>
      match parseDate s with
      | some d => .ok (.date d)
      | none => .error (.valueError ("time data " ++ s ++ " does not match format"))
  | .nan => .ok .nan
  | .date d => .ok (.date d)
  | .datetime d t => .ok (.datetime d t)
  | .num _ => .error (.typeError "int or float is not convertible to datetime")
  | .time _ => .error (.typeError "datetime.time is not convertible to datetime")

/-- One cell of pd.to_datetime(-, format=H.M.S).dt.time on the Time column
[analysis.py line 59].  Strings are parsed strictly, failure RAISES; NaN
passes through as NaT; a datetime64 value passes through to_datetime and
dt.time extracts its time-of-day (midnight for a bare date); a
datetime.time object (as present after a previous clean) or a number is
not convertible and raises TypeError. -/
def timeConvCell : Cell → Except PyError Cell
  | .str s =>
      match parseTime s with
      | some t => .ok (.time t)
      | none => .error (.valueError ("time data " ++ s ++ " does not match format"))
  | .nan => .ok .nan
  | .date _ => .ok (.time 0)
  | .datetime _ t => .ok (.time t)
  | .num _ => .error (.typeError "int or float is not convertible to datetime")
  | .time _ => .error (.typeError "datetime.time is not convertible to datetime")

/-- One row of the DateTime derivation [analysis.py lines 63-70]: rows
where either side is NaN keep NaT; a parsed date plus a parsed time
concatenate to a string that to_datetime parses into the combined
timestamp; any other non-absent pair concatenates to a string that fails
to parse and raises. -/
def combineCell : Cell → Cell → Except PyError Cell
  | .date d, .time t => .ok (.datetime d t)
  | .nan, _ => .ok .nan
  | _, .nan => .ok .nan
  | _, _ => .error (.valueError "unconverted data remains in combined datetime string")

/-- A pandas DataFrame, column-wise: named columns in order. -/
structure Frame where
  cols : List (String × List Cell)
deriving DecidableEq, Repr

/-- Column lookup df[name]; None models the KeyError case. -/
def getCol (f : Frame) (n : String) : Option (List Cell) :=
  (f.cols.find? (fun p => p.1 == n)).map (fun p => p.2)

def setColList : List (String × List Cell) → String → List Cell → List (String × List Cell)
  | [], n, cs => [(n, cs)]
  | p :: ps, n, cs => if p.1 == n then (n, cs) :: ps else p :: setColList ps n cs

/-- Column assignment df[name] = cells: replaces the column in place if
present, otherwise appends it at the end (pandas semantics). -/
def setCol (f : Frame) (n : String) (cs : List Cell) : Frame :=
  ⟨setColList f.cols n cs⟩

/-- df.replace(-200, np.nan) over the whole frame. -/
def replaceFrame (f : Frame) : Frame :=
  ⟨f.cols.map (fun p => (p.1, p.2.map replaceCell))⟩

/-- Map a fallible per-cell conversion over a column, stopping at the
first raised exception (models a raising pandas conversion). -/
def mapCellsE (g : Cell → Except PyError Cell) : List Cell → Except PyError (List Cell)
  | [] => .ok []
  | c :: cs =>
      match g c with
      | .error e => .error e
      | .ok c2 =>
          match mapCellsE g cs with
          | .error e => .error e
          | .ok cs2 => .ok (c2 :: cs2)

/-- Zip a fallible two-column combination row by row. -/
def zipCellsE (g : Cell → Cell → Except PyError Cell) :
    List Cell → List Cell → Except PyError (List Cell)
  | a :: as2, b :: bs =>
      match g a b with
      | .error e => .error e
      | .ok c =>
          match zipCellsE g as2 bs with
          | .error e => .error e
          | .ok cs => .ok (c :: cs)
  | _, _ => .ok []

/-- The Python heap slice relevant to clean_data: the object the caller
passed (df) and the working copy (df_clean).  Every statement of
clean_data assigns into or rebinds df_clean only. -/
structure PyState where
  orig : Frame
  work : Frame
deriving DecidableEq, Repr

/-- df_clean['Date'] = pd.to_datetime(df_clean['Date'], format=d/m/Y)
[analysis.py line 58]; reading a missing column raises KeyError. -/
def convertDateStep (st : PyState) : Except PyError PyState :=
  match getCol st.work "Date" with
  | none => .error (.keyError "Date")
  | some ds =>
      match mapCellsE dateConvCell ds with
      | .error e => .error e
      | .ok ds2 => .ok { st with work := setCol st.work "Date" ds2 }

/-- df_clean['Time'] = pd.to_datetime(df_clean['Time'], format=H.M.S).dt.time
[analysis.py line 59]. -/
def convertTimeStep (st : PyState) : Except PyError PyState :=
  match getCol st.work "Time" with
  | none => .error (.keyError "Time")
  | some ts =>
      match mapCellsE timeConvCell ts with
      | .error e => .error e
      | .ok ts2 => .ok { st with work := setCol st.work "Time" ts2 }

/-- The DateTime derivation [analysis.py lines 63-70]: a fresh DateTime
column holding the combined timestamp where both Date and Time are
non-absent and NaT elsewhere. -/
def datetimeStep (st : PyState) : Except PyError PyState :=
  match getCol st.work "Date", getCol st.work "Time" with
  | some ds, some ts =>
      match zipCellsE combineCell ds ts with
      | .error e => .error e
      | .ok dts => .ok { st with work := setCol st.work "DateTime" dts }
  | none, _ => .error (.keyError "Date")
  | _, none => .error (.keyError "Time")

/-- The fixed list of numeric variable columns [analysis.py lines 73-75]. -/
def numeric_columns : List String :=
  ["CO(GT)", "PT08.S1(CO)", "NMHC(GT)", "C6H6(GT)",
   "PT08.S2(NMHC)", "NOx(GT)", "PT08.S3(NOx)", "NO2(GT)",
   "PT08.S4(NO2)", "PT08.S5(O3)", "T", "RH", "AH"]

/-- One iteration of the numeric-coercion loop [analysis.py lines 77-81]:
guarded by membership of the column, so never raises. -/
def coerceColIfPresent (f : Frame) (n : String) : Frame :=
  match getCol f n with
  | none => f
  | some cs => setCol f n (cs.map numericCoerce)

def numericStep (st : PyState) : PyState :=
  { st with work := numeric_columns.foldl coerceColIfPresent st.work }

/-- The statement sequence of clean_data after the df.copy()
[analysis.py lines 52-83], threading the two-object heap. -/
def runCleanSteps (st : PyState) : Except PyError PyState :=
  match convertDateStep { st with work := replaceFrame st.work } with
  | .error e => .error e
  | .ok st2 =>
      match convertTimeStep st2 with
      | .error e => .error e
      | .ok st3 =>
          match datetimeStep st3 with
          | .error e => .error e
          | .ok st4 => .ok (numericStep st4)

/-- clean_data [analysis.py lines 38-83].  None short-circuits to None;
otherwise df_clean starts as a value copy of df and the steps run. -/
def clean_data (odf : Option Frame) : Except PyError (Option Frame) :=
  match odf with
  | none => .ok none
  | some df =>
      match runCleanSteps { orig := df, work := df } with
      | .error e => .error e
      | .ok st => .ok (some st.work)

/-- The numeric values of a float column after dropna: the non-NaN
entries.  (On the tracked columns of a cleaned frame every cell is a
number or NaN, so this is exactly Series.dropna.) -/
def seriesNums (cs : List Cell) : List ℚ :=
  cs.filterMap (fun c => match c with | .num q => some q | _ => none)

/-- Series.mean with skipna: NaN (none) on an empty series, never zero. -/
def listMean (qs : List ℚ) : Option ℚ :=
  if qs.isEmpty then none else some (qs.sum / qs.length)

def insertSorted (q : ℚ) : List ℚ → List ℚ
  | [] => [q]
  | r :: rs => if q ≤ r then q :: r :: rs else r :: insertSorted q rs

def sortQ (qs : List ℚ) : List ℚ := qs.foldr insertSorted []

/-- Series.median: NaN on an empty series; middle element for odd length,
mean of the two middle elements for even length. -/
def listMedian (qs : List ℚ) : Option ℚ :=
  let s := sortQ qs
  let n := s.length
  if n = 0 then none
  else if n % 2 = 1 then s[n / 2]?
  else
    match s[n / 2 - 1]?, s[n / 2]? with
    | some a, some b => some ((a + b) / 2)
    | _, _ => none

/-- Series.max: NaN on an empty series. -/
def listMax : List ℚ → Option ℚ
  | [] => none
  | q :: qs => match listMax qs with
               | none => some q
               | some m => some (max q m)

/-- Series.min: NaN on an empty series. -/
def listMin : List ℚ → Option ℚ
  | [] => none
  | q :: qs => match listMin qs with
               | none => some q
               | some m => some (min q m)

/-- Series.std (sample, ddof=1): NaN when fewer than two values.  The
value carried here is the sample VARIANCE; the code takes its square
root, which is irrational in general, but the square root of a
nonnegative rational is absent exactly when the variance is absent, and
every claim about std concerns only its absence. -/
def listStd (qs : List ℚ) : Option ℚ :=
  if qs.length ≤ 1 then none
  else
    some ((qs.map (fun q => (q - qs.sum / qs.length) ^ 2)).sum / (qs.length - 1 : ℚ))

/-- The five descriptive statistics of one tracked variable
[analysis.py lines 130-136 and analogues]. -/
structure VarStats where
  mean : Option ℚ
  median : Option ℚ
  max : Option ℚ
  min : Option ℚ
  std : Option ℚ
deriving DecidableEq, Repr

def varStatsOf (cs : List Cell) : VarStats :=
  let qs := seriesNums cs
  { mean := listMean qs, median := listMedian qs,
    max := listMax qs, min := listMin qs, std := listStd qs }

/-- The metrics dict [analysis.py lines 125-171]: one optional entry per
tracked variable, present exactly when the column is present. -/
structure Metrics where
  co : Option VarStats
  temperature : Option VarStats
  humidity : Option VarStats
  absolute_humidity : Option VarStats
deriving DecidableEq, Repr

/-- calculate_air_quality_metrics [analysis.py lines 112-171].  None
short-circuits to the empty dict (modelled as none). -/
def calculate_air_quality_metrics (odf : Option Frame) : Option Metrics :=
  match odf with
  | none => none
  | some df =>
      some { co := (getCol df "CO(GT)").map varStatsOf,
             temperature := (getCol df "T").map varStatsOf,
             humidity := (getCol df "RH").map varStatsOf,
             absolute_humidity := (getCol df "AH").map varStatsOf }

/-- The date payload of a cell, when the cell is a parsed date. -/
def dateKey : Cell → Option Nat
  | .date d => some d
  | _ => none

/-- A column has numeric dtype when every cell is a number or NaN.  This
matches select_dtypes(include=[np.number]) on the frames the pipeline
produces: the coerced variable columns are float64, while raw text
columns are object, Date/DateTime are datetime64 and Time holds time
objects, none of which are numeric. -/
def numericCols (df : Frame) : List (String × List Cell) :=
  df.cols.filter (fun p => p.2.all (fun c => match c with
    | .num _ => true
    | .nan => true
    | _ => false))

/-- The distinct group keys of groupby('Date') in ascending order; rows
with an absent date are dropped from grouping (dropna default). -/
def groupKeys (ds : List Cell) : List Nat :=
  (ds.filterMap dateKey).toFinset.sort (fun a b => a ≤ b)

/-- The values of a column restricted to the rows of one date group. -/
def selectGroup (ds cs : List Cell) (d : Nat) : List Cell :=
  ((ds.zip cs).filter (fun p => p.1 = Cell.date d)).map (fun p => p.2)

/-- GroupBy.mean of one group of one column: the mean of the non-absent
values, NaN when every value in the group is absent. -/
def meanCell (cs : List Cell) : Cell :=
  match listMean (seriesNums cs) with
  | some q => .num q
  | none => .nan

/-- get_daily_averages [analysis.py lines 200-216]: group by Date, take
per-group means of the numeric columns, reset_index puts Date first.
None short-circuits to None; a missing Date column raises KeyError. -/
def get_daily_averages (odf : Option Frame) : Except PyError (Option Frame) :=
  match odf with
  | none => .ok none
  | some df =>
      match getCol df "Date" with
      | none => .error (.keyError "Date")
      | some ds =>
          let ks := groupKeys ds
          .ok (some ⟨("Date", ks.map Cell.date) ::
            (numericCols df).map (fun p =>
              (p.1, ks.map (fun d => meanCell (selectGroup ds p.2 d))))⟩)

/-- len(df): the row count, i.e. the length of the first column (all
columns of a DataFrame have equal length). -/
def frameLen (df : Frame) : Nat :=
  match df.cols with
  | [] => 0
  | c :: _ => c.2.length

/-- Series.min on the Date column: earliest non-absent date, NaT when
there is none. -/
def dateMinCell (cs : List Cell) : Cell :=
  match (cs.filterMap dateKey).min? with
  | some d => .date d
  | none => .nan

def dateMaxCell (cs : List Cell) : Cell :=
  match (cs.filterMap dateKey).max? with
  | some d => .date d
  | none => .nan

/-- (isnull().sum() / len * 100).round(2) for one column; on an empty
frame the division yields NaN.  round puts ties away from zero where
numpy rounds ties to even; no claim touches a tie. -/
def missingPct (cs : List Cell) (n : Nat) : Option ℚ :=
  if n = 0 then none
  else some ((round (((cs.countP (fun c => c = Cell.nan) : ℚ) / n * 100) * 100) : ℤ) / 100)

/-- The summary dict [analysis.py lines 99-107]. -/
structure Summary where
  total_records : Nat
  date_start : Cell
  date_end : Cell
  missing_data_percentage : List (String × Option ℚ)
  numeric_cols_out : List String
deriving DecidableEq, Repr

/-- get_data_summary [analysis.py lines 86-109].  None short-circuits to
the empty dict (modelled as none); df['Date'] raises KeyError when the
column is missing. -/
def get_data_summary (odf : Option Frame) : Except PyError (Option Summary) :=
  match odf with
  | none => .ok none
  | some df =>
      match getCol df "Date" with
      | none => .error (.keyError "Date")
      | some ds =>
          .ok (some
            { total_records := frameLen df,
              date_start := dateMinCell ds,
              date_end := dateMaxCell ds,
              missing_data_percentage :=
                df.cols.map (fun p => (p.1, missingPct p.2 (frameLen df))),
              numeric_cols_out := (numericCols df).map (fun p => p.1) })

/-- Python truthiness of the optional date bounds: None and the empty
string are falsy. -/
def truthy : Option String → Bool
  | none => false
  | some s => s ≠ ""

/-- pd.to_datetime on a bound string with the default parser; the
documented bound format is Y-M-D. -/
def parseIsoDate (s : String) : Option Nat :=
  match splitOnChar '-' s.toList with
  | [y, m, d] =>
      if allDigits y ∧ allDigits m ∧ allDigits d ∧
         y.length = 4 ∧ m ≠ [] ∧ m.length ≤ 2 ∧ d ≠ [] ∧ d.length ≤ 2 then
        let yn := digitsVal y
        let mn := digitsVal m
        let dn := digitsVal d
        if 1 ≤ mn ∧ mn ≤ 12 ∧ 1 ≤ dn ∧ dn ≤ daysInMonth yn mn then
          some (yn * 10000 + mn * 100 + dn)
        else none
      else none
  | _ => none

/-- One row of the boolean mask df['Date'] >= bound (or <= for the end
bound): NaT compares False; comparing a non-datetime value with a
Timestamp raises TypeError. -/
def cmpMaskCell (le : Bool) (bound : Nat) (c : Cell) : Except PyError Bool :=
  match c with
  | .date d => .ok (if le then decide (d ≤ bound) else decide (bound ≤ d))
  | .datetime d _ => .ok (if le then decide (d ≤ bound) else decide (bound ≤ d))
  | .nan => .ok false
  | _ => .error (.typeError "Invalid comparison between str and Timestamp")

def maskOfCol (le : Bool) (bound : Nat) : List Cell → Except PyError (List Bool)
  | [] => .ok []
  | c :: cs =>
      match cmpMaskCell le bound c with
      | .error e => .error e
      | .ok b =>
          match maskOfCol le bound cs with
          | .error e => .error e
          | .ok bs => .ok (b :: bs)

def keepByMask : List Cell → List Bool → List Cell
  | c :: cs, b :: bs => if b then c :: keepByMask cs bs else keepByMask cs bs
  | _, _ => []

/-- df[mask]: keep the rows whose mask entry is True, in every column. -/
def filterRows (f : Frame) (mask : List Bool) : Frame :=
  ⟨f.cols.map (fun p => (p.1, keepByMask p.2 mask))⟩

/-- One bound filter of filter_by_date_range [analysis.py lines 191-195]:
skipped when the bound is falsy; otherwise the bound is parsed (failure
raises), the Date column is read (KeyError if missing) and the rows are
filtered.  le=false keeps dates >= the start bound, le=true keeps dates
<= the end bound. -/
def applyBoundFilter (le : Bool) (st : PyState) (bound : Option String) :
    Except PyError PyState :=
  if truthy bound then
    match parseIsoDate (bound.getD "") with
    | none => .error (.valueError "Unknown datetime string format")
    | some b =>
        match getCol st.work "Date" with
        | none => .error (.keyError "Date")
        | some ds =>
            match maskOfCol le b ds with
            | .error e => .error e
            | .ok mask => .ok { st with work := filterRows st.work mask }
  else .ok st

/-- The statement sequence of filter_by_date_range after df.copy()
[analysis.py lines 189-197], threading the two-object heap. -/
def runFilterSteps (df : Frame) (sd ed : Option String) : Except PyError PyState :=
  match applyBoundFilter false { orig := df, work := df } sd with
  | .error e => .error e
  | .ok st1 => applyBoundFilter true st1 ed

/-- filter_by_date_range [analysis.py lines 174-197]. -/
def filter_by_date_range (odf : Option Frame) (sd ed : Option String) :
    Except PyError (Option Frame) :=
  match odf with
  | none => .ok none
  | some df =>
      match runFilterSteps df sd ed with
      | .error e => .error e
      | .ok st => .ok (some st.work)

instance {e a : Type} [DecidableEq e] [DecidableEq a] : DecidableEq (Except e a) :=
  fun x y =>
    match x, y with
    | .error u, .error v =>
        if h : u = v then .isTrue (by rw [h])
        else .isFalse (fun he => h (Except.error.inj he))
    | .ok u, .ok v =>
        if h : u = v then .isTrue (by rw [h])
        else .isFalse (fun he => h (Except.ok.inj he))
    | .error _, .ok _ => .isFalse (fun he => Except.noConfusion he)
    | .ok _, .error _ => .isFalse (fun he => Except.noConfusion he)

/-- Whether a per-cell conversion returned normally (did not raise). -/
def convOk : Except PyError Cell → Bool
  | .ok _ => true
  | .error _ => false

/-- The input of the C1 failing run: a one-row table whose CO(GT) raw
value is the sentinel in its textual form. -/
def c1_input : Frame :=
  ⟨[("Date", [.str "10/03/2004"]), ("Time", [.str "18.00.00"]),
    ("CO(GT)", [.str "-200"])]⟩

/-- The table clean_data actually returns on c1_input. -/
def c1_output : Frame :=
  ⟨[("Date", [.date 20040310]), ("Time", [.time 180000]),
    ("CO(GT)", [.num (-200)]), ("DateTime", [.datetime 20040310 180000])]⟩

/-- A raw one-row table, input of the C2 counterexample. -/
def c2_raw : Frame :=
  ⟨[("Date", [.str "10/03/2004"]), ("Time", [.str "18.00.00"])]⟩

/-- The cleaned form of c2_raw. -/
def c2_cleaned : Frame :=
  ⟨[("Date", [.date 20040310]), ("Time", [.time 180000]),
    ("DateTime", [.datetime 20040310 180000])]⟩

/-- Concrete cleaned table for the C2 amended witness. -/
def c2w_cleaned : Frame :=
  ⟨[("Date", [.date 20040311]), ("Time", [.time 80000]),
    ("DateTime", [.datetime 20040311 80000])]⟩

/-- Input of the C3 counterexample: one row with garbage date text. -/
def c3_input : Frame :=
  ⟨[("Date", [.str "notadate"]), ("Time", [.str "18.00.00"])]⟩

/-- Input of the C9 counterexample: it lacks a Time column, and its Date
column holds an unparseable value. -/
def c9_input : Frame := ⟨[("Date", [.str "x"])]⟩

/-- The raw input table of the C8 witness run. -/
def c8_input : Frame :=
  ⟨[("Date", [.str "11/03/2004"]), ("Time", [.str "08.30.00"])]⟩

/-- The heap state after the C8 witness run: untouched original next to
the cleaned working copy. -/
def c8_state : PyState :=
  ⟨c8_input,
   ⟨[("Date", [.date 20040311]), ("Time", [.time 83000]),
     ("DateTime", [.datetime 20040311 83000])]⟩⟩

/-- Input table of the C4 witness: one fully-parsed row and one row with
an absent time. -/
def c4_input : Frame :=
  ⟨[("Date", [.str "10/03/2004", .str "11/03/2004"]),
    ("Time", [.str "18.00.00", .nan])]⟩

/-- clean_data output on c4_input. -/
def c4_output : Frame :=
  ⟨[("Date", [.date 20040310, .date 20040311]),
    ("Time", [.time 180000, .nan]),
    ("DateTime", [.datetime 20040310 180000, .nan])]⟩

/-- The table of the C5 witness: all four tracked columns present with a
single absent value each. -/
def c5_frame : Frame :=
  ⟨[("CO(GT)", [Cell.nan]), ("T", [Cell.nan]),
    ("RH", [Cell.nan]), ("AH", [Cell.nan])]⟩

/-- The table of the C6 witness: two dates out of order, an absent date,
and one numeric column. -/
def c6_frame : Frame :=
  ⟨[("Date", [.date 20040311, .nan, .date 20040310]),
    ("T", [.num 5, .num 7, .nan])]⟩

/-- The table of the C10 witness run. -/
def c10_frame : Frame := ⟨[("Date", [.date 20040310, .nan])]⟩

/-- The heap state after filtering c10_frame from a concrete start
bound: untouched original next to the filtered copy. -/
def c10_state : PyState := ⟨c10_frame, ⟨[("Date", [.date 20040310])]⟩⟩

lemma findCol_setColList_self (l : List (String × List Cell)) (n : String) (cs : List Cell) :
    (setColList l n cs).find? (fun p => p.1 == n) = some (n, cs) := by
  induction l with
  | nil => simp [setColList, List.find?]
  | cons p ps ih =>
      cases hb : (p.1 == n) with
      | true => simp [setColList, hb, List.find?]
      | false =>
          simp only [setColList, hb, Bool.false_eq_true, if_false]
          simpa [List.find?, hb] using ih

lemma getCol_setCol_self (f : Frame) (n : String) (cs : List Cell) :
    getCol (setCol f n cs) n = some cs := by
  simp [getCol, setCol, findCol_setColList_self]

lemma findCol_setColList_ne (l : List (String × List Cell)) {n m : String}
    (h : m ≠ n) (cs : List Cell) :
    (setColList l n cs).find? (fun p => p.1 == m) = l.find? (fun p => p.1 == m) := by
  have hnm : (n == m) = false := by
    simp only [beq_eq_false_iff_ne, ne_eq]
    exact fun he => h (he ▸ rfl)
  induction l with
  | nil => simp [setColList, List.find?, hnm]
  | cons p ps ih =>
      cases hb : (p.1 == n) with
      | true =>
          have hp : p.1 = n := by simpa using hb
          simp [setColList, hb, List.find?, hnm, hp]
      | false =>
          simp only [setColList, hb, Bool.false_eq_true, if_false]
          cases hm : (p.1 == m) with
          | true => simp [List.find?, hm]
          | false => simpa [List.find?, hm] using ih

lemma getCol_setCol_ne (f : Frame) {n m : String} (h : m ≠ n) (cs : List Cell) :
    getCol (setCol f n cs) m = getCol f m := by
  simp [getCol, setCol, findCol_setColList_ne _ h]

lemma findCol_map_replace (l : List (String × List Cell)) (n : String) :
    (l.map (fun p => (p.1, p.2.map replaceCell))).find? (fun p => p.1 == n) =
      (l.find? (fun p => p.1 == n)).map (fun p => (p.1, p.2.map replaceCell)) := by
  induction l with
  | nil => simp [List.find?]
  | cons p ps ih =>
      cases hb : (p.1 == n) with
      | true => simp [List.find?, hb]
      | false => simpa [List.find?, hb] using ih

lemma getCol_replaceFrame (f : Frame) (n : String) :
    getCol (replaceFrame f) n = (getCol f n).map (fun cs => cs.map replaceCell) := by
  unfold getCol replaceFrame
  simp only [findCol_map_replace]
  cases f.cols.find? (fun p => p.1 == n) <;> rfl

lemma getCol_coerceColIfPresent_ne {m n : String} (h : m ≠ n) (f : Frame) :
    getCol (coerceColIfPresent f n) m = getCol f m := by
  unfold coerceColIfPresent
  cases hg : getCol f n with
  | none => rfl
  | some cs => exact getCol_setCol_ne f h _

lemma getCol_foldl_coerce {m : String} (l : List String) (h : m ∉ l) (f : Frame) :
    getCol (l.foldl coerceColIfPresent f) m = getCol f m := by
  induction l generalizing f with
  | nil => rfl
  | cons n ns ih =>
      have hm : m ≠ n := fun he => h (he ▸ List.mem_cons_self n ns)
      have hns : m ∉ ns := fun he => h (List.mem_cons_of_mem _ he)
      simp only [List.foldl_cons]
      rw [ih hns, getCol_coerceColIfPresent_ne hm]

lemma mapCellsE_ok_mem {g : Cell → Except PyError Cell} {l r : List Cell}
    (h : mapCellsE g l = .ok r) : ∀ c2 ∈ r, ∃ c ∈ l, g c = .ok c2 := by
  induction l generalizing r with
  | nil =>
      simp [mapCellsE] at h
      subst h; intro c2 hc2; cases hc2
  | cons c cs ih =>
      unfold mapCellsE at h
      cases hg : g c with
      | error e => rw [hg] at h; cases h
      | ok c2 =>
          rw [hg] at h
          cases hrec : mapCellsE g cs with
          | error e => rw [hrec] at h; cases h
          | ok cs2 =>
              rw [hrec] at h
              cases h
              intro x hx
              rcases List.mem_cons.mp hx with hx | hx
              · exact ⟨c, List.mem_cons_self _ _, hx ▸ hg⟩
              · rcases ih hrec x hx with ⟨c0, hc0, hgc0⟩
                exact ⟨c0, List.mem_cons_of_mem _ hc0, hgc0⟩

lemma mapCellsE_error_of_mem {g : Cell → Except PyError Cell} {l : List Cell} {c : Cell}
    (hc : c ∈ l) {e : PyError} (he : g c = .error e) :
    ∃ e2, mapCellsE g l = .error e2 := by
  induction l with
  | nil => cases hc
  | cons a cs ih =>
      unfold mapCellsE
      cases hg : g a with
      | error e2 => exact ⟨e2, rfl⟩
      | ok c2 =>
          rcases List.mem_cons.mp hc with hc | hc
          · subst hc; rw [hg] at he; cases he
          · rcases ih hc with ⟨e2, h2⟩
            rw [h2]
            exact ⟨e2, rfl⟩

lemma mapCellsE_ok_of_forall {g : Cell → Except PyError Cell} {l : List Cell}
    (h : ∀ c ∈ l, (g c).isOk) : ∃ r, mapCellsE g l = .ok r := by
  induction l with
  | nil => exact ⟨[], rfl⟩
  | cons a cs ih =>
      have ha := h a (List.mem_cons_self _ _)
      cases hg : g a with
      | error e => rw [hg] at ha; cases ha
      | ok c2 =>
          rcases ih (fun c hc => h c (List.mem_cons_of_mem _ hc)) with ⟨r, hr⟩
          exact ⟨c2 :: r, by unfold mapCellsE; rw [hg, hr]⟩

lemma zipCellsE_ok_get {g : Cell → Cell → Except PyError Cell}
    {as2 bs r : List Cell} (h : zipCellsE g as2 bs = .ok r) :
    ∀ (i : Nat) (c : Cell), r[i]? = some c →
      ∃ a b, as2[i]? = some a ∧ bs[i]? = some b ∧ g a b = .ok c := by
  induction as2 generalizing bs r with
  | nil =>
      unfold zipCellsE at h
      cases h
      intro i c hc; simp at hc
  | cons a as3 ih =>
      cases bs with
      | nil =>
          unfold zipCellsE at h
          cases h
          intro i c hc; simp at hc
      | cons b bs2 =>
          unfold zipCellsE at h
          cases hg : g a b with
          | error e => rw [hg] at h; cases h
          | ok c0 =>
              rw [hg] at h
              cases hrec : zipCellsE g as3 bs2 with
              | error e => rw [hrec] at h; cases h
              | ok cs =>
                  rw [hrec] at h
                  cases h
                  intro i c hc
                  cases i with
                  | zero =>
                      simp at hc
                      exact ⟨a, b, by simp, by simp, hc ▸ hg⟩
                  | succ j =>
                      simp only [List.getElem?_cons_succ] at hc ⊢
                      exact ih hrec j c hc

lemma convertDateStep_ok {st st2 : PyState} (h : convertDateStep st = .ok st2) :
    st2.orig = st.orig ∧ ∃ ds ds2, getCol st.work "Date" = some ds ∧
      mapCellsE dateConvCell ds = .ok ds2 ∧ st2.work = setCol st.work "Date" ds2 := by
  unfold convertDateStep at h
  split at h
  · cases h
  · next ds hg =>
      split at h
      · cases h
      · next ds2 hm =>
          cases h
          exact ⟨rfl, ds, ds2, hg, hm, rfl⟩

lemma convertTimeStep_ok {st st2 : PyState} (h : convertTimeStep st = .ok st2) :
    st2.orig = st.orig ∧ ∃ ts ts2, getCol st.work "Time" = some ts ∧
      mapCellsE timeConvCell ts = .ok ts2 ∧ st2.work = setCol st.work "Time" ts2 := by
  unfold convertTimeStep at h
  split at h
  · cases h
  · next ts hg =>
      split at h
      · cases h
      · next ts2 hm =>
          cases h
          exact ⟨rfl, ts, ts2, hg, hm, rfl⟩

lemma datetimeStep_ok {st st2 : PyState} (h : datetimeStep st = .ok st2) :
    st2.orig = st.orig ∧ ∃ ds ts dts, getCol st.work "Date" = some ds ∧
      getCol st.work "Time" = some ts ∧ zipCellsE combineCell ds ts = .ok dts ∧
      st2.work = setCol st.work "DateTime" dts := by
  unfold datetimeStep at h
  split at h
  · next ds ts hd ht =>
      split at h
      · cases h
      · next dts hz =>
          cases h
          exact ⟨rfl, ds, ts, dts, hd, ht, hz, rfl⟩
  · cases h
  · cases h

lemma runCleanSteps_ok_decomp {o w : Frame} {stf : PyState}
    (h : runCleanSteps ⟨o, w⟩ = .ok stf) :
    stf.orig = o ∧
    ∃ ds1 ds2 ts1 ts2 dts,
      getCol w "Date" = some ds1 ∧
      mapCellsE dateConvCell (ds1.map replaceCell) = .ok ds2 ∧
      getCol w "Time" = some ts1 ∧
      mapCellsE timeConvCell (ts1.map replaceCell) = .ok ts2 ∧
      zipCellsE combineCell ds2 ts2 = .ok dts ∧
      stf.work = numeric_columns.foldl coerceColIfPresent
        (setCol (setCol (setCol (replaceFrame w) "Date" ds2) "Time" ts2) "DateTime" dts) := by
  unfold runCleanSteps at h
  split at h
  · cases h
  · next st2 hA =>
    split at h
    · cases h
    · next st3 hB =>
      split at h
      · cases h
      · next st4 hC =>
        cases h
        obtain ⟨ho2, ds1r, ds2, hgd, hmd, hw2⟩ := convertDateStep_ok hA
        obtain ⟨ho3, ts1r, ts2, hgt, hmt, hw3⟩ := convertTimeStep_ok hB
        obtain ⟨ho4, dsx, tsx, dts, hgd4, hgt4, hz, hw4⟩ := datetimeStep_ok hC
        rw [getCol_replaceFrame] at hgd
        cases hgw : getCol w "Date" with
        | none => rw [hgw] at hgd; cases hgd
        | some ds1 =>
            rw [hgw] at hgd
            have hds1 : ds1r = ds1.map replaceCell := by
              simpa using hgd.symm
            rw [hw2, getCol_setCol_ne _ (by decide), getCol_replaceFrame] at hgt
            cases hgtw : getCol w "Time" with
            | none => rw [hgtw] at hgt; cases hgt
            | some ts1 =>
                rw [hgtw] at hgt
                have hts1 : ts1r = ts1.map replaceCell := by
                  simpa using hgt.symm
                rw [hw3, hw2] at hgd4 hgt4
                rw [getCol_setCol_ne _ (by decide), getCol_setCol_self] at hgd4
                rw [getCol_setCol_self] at hgt4
                cases hgd4
                cases hgt4
                refine ⟨?_, ds1, ds2, ts1, ts2, dts, rfl,
                  hds1 ▸ hmd, rfl, hts1 ▸ hmt, hz, ?_⟩
                · simp only [numericStep]
                  rw [ho4, ho3, ho2]
                · simp only [numericStep]
                  rw [hw4, hw3, hw2]

lemma dateConv_ok_shape {c c2 : Cell} (h : dateConvCell c = .ok c2) :
    (∃ d, c2 = .date d) ∨ c2 = .nan ∨ ∃ d t, c2 = .datetime d t := by
  cases c with
  | str s =>
      simp only [dateConvCell] at h
      split at h
      · next d hp => injection h with h1; exact Or.inl ⟨d, h1.symm⟩
      · cases h
  | num q => exact absurd h (by simp [dateConvCell])
  | nan =>
      simp only [dateConvCell] at h
      injection h with h1; exact Or.inr (Or.inl h1.symm)
  | date d =>
      simp only [dateConvCell] at h
      injection h with h1; exact Or.inl ⟨d, h1.symm⟩
  | time t => exact absurd h (by simp [dateConvCell])
  | datetime d t =>
      simp only [dateConvCell] at h
      injection h with h1; exact Or.inr (Or.inr ⟨d, t, h1.symm⟩)

lemma timeConv_ok_shape {c c2 : Cell} (h : timeConvCell c = .ok c2) :
    (∃ t, c2 = .time t) ∨ c2 = .nan := by
  cases c with
  | str s =>
      simp only [timeConvCell] at h
      split at h
      · next t hp => injection h with h1; exact Or.inl ⟨t, h1.symm⟩
      · cases h
  | num q => exact absurd h (by simp [timeConvCell])
  | nan =>
      simp only [timeConvCell] at h
      injection h with h1; exact Or.inr h1.symm
  | date d =>
      simp only [timeConvCell] at h
      injection h with h1; exact Or.inl ⟨0, h1.symm⟩
  | time t => exact absurd h (by simp [timeConvCell])
  | datetime d t =>
      simp only [timeConvCell] at h
      injection h with h1; exact Or.inl ⟨t, h1.symm⟩

/-- C4. For every row of the table returned by clean_data, the derived
DateTime value is a combined timestamp exactly when both that row's Date
and that row's Time are non-absent: the timestamp is present if and only
if both the date and the time of that row parsed. -/
theorem c4_timestamp_iff (df out : Frame)
    (h : clean_data (some df) = .ok (some out)) :
    ∃ dts ds ts, getCol out "DateTime" = some dts ∧ getCol out "Date" = some ds ∧
      getCol out "Time" = some ts ∧
      ∀ (i : Nat) (dtc dc tc : Cell), dts[i]? = some dtc → ds[i]? = some dc →
        ts[i]? = some tc →
        ((∃ d t, dtc = Cell.datetime d t) ↔ (dc.notna = true ∧ tc.notna = true)) := by
  simp only [clean_data] at h
  split at h
  · cases h
  · next st hR =>
      injection h with h1
      injection h1 with h2
      obtain ⟨-, ds1, ds2, ts1, ts2, dts, hgd, hmd, hgt, hmt, hz, hwork⟩ :=
        runCleanSteps_ok_decomp hR
      refine ⟨dts, ds2, ts2, ?_, ?_, ?_, ?_⟩
      · rw [← h2, hwork, getCol_foldl_coerce _ (by decide), getCol_setCol_self]
      · rw [← h2, hwork, getCol_foldl_coerce _ (by decide),
            getCol_setCol_ne _ (by decide), getCol_setCol_ne _ (by decide),
            getCol_setCol_self]
      · rw [← h2, hwork, getCol_foldl_coerce _ (by decide),
            getCol_setCol_ne _ (by decide), getCol_setCol_self]
      · intro i dtc dc tc hdtc hdc htc
        obtain ⟨a, b, ha, hb, hcomb⟩ := zipCellsE_ok_get hz i dtc hdtc
        rw [hdc] at ha
        rw [htc] at hb
        injection ha with ha2
        injection hb with hb2
        subst ha2
        subst hb2
        obtain ⟨c0, -, hgc0⟩ := mapCellsE_ok_mem hmd dc (List.getElem?_mem hdc)
        obtain ⟨c1, -, hgc1⟩ := mapCellsE_ok_mem hmt tc (List.getElem?_mem htc)
        have hdshape := dateConv_ok_shape hgc0
        have htshape := timeConv_ok_shape hgc1
        rcases hdshape with ⟨d, rfl⟩ | rfl | ⟨d, t0, rfl⟩ <;>
          rcases htshape with ⟨t1, rfl⟩ | rfl <;>
          first
            | (injection hcomb with hc; subst hc; simp [Cell.notna])
            | injection hcomb

lemma convertDateStep_error_none {st : PyState} (h : getCol st.work "Date" = none) :
    convertDateStep st = .error (.keyError "Date") := by
  simp only [convertDateStep, h]

lemma convertDateStep_error_map {st : PyState} {ds : List Cell} {e : PyError}
    (hg : getCol st.work "Date" = some ds) (hm : mapCellsE dateConvCell ds = .error e) :
    convertDateStep st = .error e := by
  simp only [convertDateStep, hg, hm]

lemma convertDateStep_ok_eq {st : PyState} {ds ds2 : List Cell}
    (hg : getCol st.work "Date" = some ds) (hm : mapCellsE dateConvCell ds = .ok ds2) :
    convertDateStep st = .ok { st with work := setCol st.work "Date" ds2 } := by
  simp only [convertDateStep, hg, hm]

lemma convertTimeStep_error_none {st : PyState} (h : getCol st.work "Time" = none) :
    convertTimeStep st = .error (.keyError "Time") := by
  simp only [convertTimeStep, h]

lemma convertTimeStep_error_map {st : PyState} {ts : List Cell} {e : PyError}
    (hg : getCol st.work "Time" = some ts) (hm : mapCellsE timeConvCell ts = .error e) :
    convertTimeStep st = .error e := by
  simp only [convertTimeStep, hg, hm]

lemma runCleanSteps_error_of_date {o w : Frame} {e : PyError}
    (h : convertDateStep ⟨o, replaceFrame w⟩ = .error e) :
    runCleanSteps ⟨o, w⟩ = .error e := by
  simp only [runCleanSteps, h]

lemma runCleanSteps_error_of_time {o w : Frame} {st2 : PyState} {e : PyError}
    (h1 : convertDateStep ⟨o, replaceFrame w⟩ = .ok st2)
    (h2 : convertTimeStep st2 = .error e) :
    runCleanSteps ⟨o, w⟩ = .error e := by
  simp only [runCleanSteps, h1, h2]

lemma clean_data_error_iff {df : Frame} {e : PyError}
    (h : runCleanSteps ⟨df, df⟩ = .error e) : clean_data (some df) = .error e := by
  simp only [clean_data, h]

/-- A raised exception in the date conversion aborts clean_data. -/
lemma clean_error_of_date_error {df : Frame} {ds : List Cell} {e : PyError}
    (hd : getCol df "Date" = some ds)
    (hbad : mapCellsE dateConvCell (ds.map replaceCell) = .error e) :
    clean_data (some df) = .error e := by
  have hg : getCol (replaceFrame df) "Date" = some (ds.map replaceCell) := by
    rw [getCol_replaceFrame, hd]; rfl
  exact clean_data_error_iff
    (runCleanSteps_error_of_date (convertDateStep_error_map hg hbad))

/-- A raised exception in the time conversion aborts clean_data, provided
the date conversion before it succeeded. -/
lemma clean_error_of_time_error {df : Frame} {ds ds2 ts : List Cell} {e : PyError}
    (hd : getCol df "Date" = some ds)
    (hok : mapCellsE dateConvCell (ds.map replaceCell) = .ok ds2)
    (ht : getCol df "Time" = some ts)
    (hbad : mapCellsE timeConvCell (ts.map replaceCell) = .error e) :
    clean_data (some df) = .error e := by
  have hg : getCol (replaceFrame df) "Date" = some (ds.map replaceCell) := by
    rw [getCol_replaceFrame, hd]; rfl
  have hstep := @convertDateStep_ok_eq ⟨df, replaceFrame df⟩ _ _ hg hok
  have hgt : getCol (setCol (replaceFrame df) "Date" ds2) "Time" =
      some (ts.map replaceCell) := by
    rw [getCol_setCol_ne _ (by decide), getCol_replaceFrame, ht]; rfl
  exact clean_data_error_iff (runCleanSteps_error_of_time hstep
    (@convertTimeStep_error_map ⟨df, setCol (replaceFrame df) "Date" ds2⟩ _ _ hgt hbad))

/-- clean_data raises KeyError when the Date column is missing. -/
lemma clean_error_keyDate {df : Frame} (hd : getCol df "Date" = none) :
    clean_data (some df) = .error (.keyError "Date") := by
  have hg : getCol (replaceFrame df) "Date" = none := by
    rw [getCol_replaceFrame, hd]; rfl
  exact clean_data_error_iff
    (runCleanSteps_error_of_date (convertDateStep_error_none hg))

/-- clean_data raises KeyError on a missing Time column once the date
conversion has gone through. -/
lemma clean_error_keyTime {df : Frame} {ds ds2 : List Cell}
    (hd : getCol df "Date" = some ds)
    (hok : mapCellsE dateConvCell (ds.map replaceCell) = .ok ds2)
    (ht : getCol df "Time" = none) :
    clean_data (some df) = .error (.keyError "Time") := by
  have hg : getCol (replaceFrame df) "Date" = some (ds.map replaceCell) := by
    rw [getCol_replaceFrame, hd]; rfl
  have hstep := @convertDateStep_ok_eq ⟨df, replaceFrame df⟩ _ _ hg hok
  have hgt : getCol (setCol (replaceFrame df) "Date" ds2) "Time" = none := by
    rw [getCol_setCol_ne _ (by decide), getCol_replaceFrame, ht]; rfl
  exact clean_data_error_iff (runCleanSteps_error_of_time hstep
    (@convertTimeStep_error_none ⟨df, setCol (replaceFrame df) "Date" ds2⟩ hgt))

lemma replaceCell_eq_of_dateConv_ok {c : Cell} (h : convOk (dateConvCell c) = true) :
    replaceCell c = c := by
  cases c with
  | num q => simp [dateConvCell, convOk] at h
  | str s => rfl
  | nan => rfl
  | date d => rfl
  | time t => rfl
  | datetime d t => rfl

lemma replaceCell_str (s : String) : replaceCell (.str s) = .str s := rfl

lemma replaceCell_time (t : Nat) : replaceCell (.time t) = .time t := rfl

/-- C1.  Evaluation of the code at the failing input: the textual
sentinel "-200" in the numeric field CO(GT) passes through clean_data as
the NUMBER -200, not as the absent value, because the replace step runs
before the string-to-number coercion and matches only the numeric -200.
This contradicts the stated rule that a raw value equal to the sentinel
in any locale form is absent after cleaning. -/
theorem c1_sentinel_text_bug :
    clean_data (some c1_input) = .ok (some c1_output) ∧
    getCol c1_output "CO(GT)" = some [Cell.num (-200)] ∧
    (Cell.num (-200)).notna = true := by
  exact ⟨rfl, rfl, rfl⟩

/-- C2 counterexample.  clean_data is not idempotent: cleaning the
already-cleaned table raises a TypeError (the Time column now holds time
objects, which the fixed-format to_datetime rejects), so
clean(clean(t)) differs from clean(t) at this table. -/
theorem c2_not_idempotent_counterexample :
    clean_data (some c2_raw) = .ok (some c2_cleaned) ∧
    clean_data (some c2_cleaned) =
      .error (.typeError "datetime.time is not convertible to datetime") ∧
    clean_data (some c2_cleaned) ≠ clean_data (some c2_raw) := by
  refine ⟨rfl, rfl, ?_⟩
  intro h
  rw [show clean_data (some c2_cleaned) =
        .error (.typeError "datetime.time is not convertible to datetime") from rfl,
      show clean_data (some c2_raw) = .ok (some c2_cleaned) from rfl] at h
  cases h

/-- C2 amended.  Re-running clean_data on a table whose Date column
converts cleanly (as any cleaned table does) but whose Time column
contains at least one parsed time object raises an exception instead of
returning the table unchanged: clean of a cleaned table with any parsed
time is an error, not a no-op. -/
theorem c2_amended_reclean_raises (f : Frame) (ds ts : List Cell) (t : Nat)
    (hd : getCol f "Date" = some ds)
    (hok : ∀ c ∈ ds, convOk (dateConvCell c) = true)
    (ht : getCol f "Time" = some ts)
    (hmem : Cell.time t ∈ ts) :
    ∃ e, clean_data (some f) = .error e := by
  have hok2 : ∀ c ∈ ds.map replaceCell, (dateConvCell c).isOk := by
    intro c hc
    rcases List.mem_map.mp hc with ⟨c0, hc0, rfl⟩
    rw [replaceCell_eq_of_dateConv_ok (hok c0 hc0)]
    have := hok c0 hc0
    cases hg : dateConvCell c0 with
    | ok c2 => rfl
    | error e => rw [hg] at this; simp [convOk] at this
  obtain ⟨ds2, hds2⟩ := mapCellsE_ok_of_forall hok2
  have hmem2 : Cell.time t ∈ ts.map replaceCell := by
    have h1 := List.mem_map_of_mem replaceCell hmem
    rwa [replaceCell_time] at h1
  obtain ⟨e2, he2⟩ := mapCellsE_error_of_mem hmem2
    (rfl : timeConvCell (.time t) =
      .error (.typeError "datetime.time is not convertible to datetime"))
  exact ⟨e2, clean_error_of_time_error hd hds2 ht he2⟩

/-- Witness for the C2 amended theorem at a concrete cleaned table. -/
theorem c2_amended_reclean_raises_witness :
    ∃ e, clean_data (some c2w_cleaned) = .error e :=
  c2_amended_reclean_raises c2w_cleaned [.date 20040311] [.time 80000] 80000
    rfl (by decide) rfl (by decide)

/-- C3 counterexample.  A row whose Date fails to parse does not get an
absent date: clean_data raises a ValueError and the whole clean fails,
contradicting the claim that parse failures are coerced and the clean of
the table succeeds. -/
theorem c3_garbage_date_raises_counterexample :
    clean_data (some c3_input) =
      .error (.valueError "time data notadate does not match format") := rfl

/-- C3 amended.  A Date or Time value that fails to parse under the
fixed pattern makes clean_data raise an error for the whole table (the
to_datetime calls use the default errors=raise), instead of setting the
field absent on that row: the clean of a table containing garbage
date/time text never succeeds. -/
theorem c3_amended_parse_failure_raises :
    (∀ (f : Frame) (ds : List Cell) (s : String),
      getCol f "Date" = some ds → Cell.str s ∈ ds → parseDate s = none →
      ∃ e, clean_data (some f) = .error e) ∧
    (∀ (f : Frame) (ds ts : List Cell) (s : String),
      getCol f "Date" = some ds → (∀ c ∈ ds, convOk (dateConvCell c) = true) →
      getCol f "Time" = some ts → Cell.str s ∈ ts → parseTime s = none →
      ∃ e, clean_data (some f) = .error e) := by
  constructor
  · intro f ds s hd hmem hparse
    have hmem2 : Cell.str s ∈ ds.map replaceCell := by
      have h1 := List.mem_map_of_mem replaceCell hmem
      rwa [replaceCell_str] at h1
    have herr : dateConvCell (.str s) =
        .error (.valueError ("time data " ++ s ++ " does not match format")) := by
      simp [dateConvCell, hparse]
    obtain ⟨e2, he2⟩ := mapCellsE_error_of_mem hmem2 herr
    exact ⟨e2, clean_error_of_date_error hd he2⟩
  · intro f ds ts s hd hok ht hmem hparse
    have hok2 : ∀ c ∈ ds.map replaceCell, (dateConvCell c).isOk := by
      intro c hc
      rcases List.mem_map.mp hc with ⟨c0, hc0, rfl⟩
      rw [replaceCell_eq_of_dateConv_ok (hok c0 hc0)]
      have h0 := hok c0 hc0
      cases hg : dateConvCell c0 with
      | ok c2 => rfl
      | error e => rw [hg] at h0; simp [convOk] at h0
    obtain ⟨ds2, hds2⟩ := mapCellsE_ok_of_forall hok2
    have hmem2 : Cell.str s ∈ ts.map replaceCell := by
      have h1 := List.mem_map_of_mem replaceCell hmem
      rwa [replaceCell_str] at h1
    have herr : timeConvCell (.str s) =
        .error (.valueError ("time data " ++ s ++ " does not match format")) := by
      simp [timeConvCell, hparse]
    obtain ⟨e2, he2⟩ := mapCellsE_error_of_mem hmem2 herr
    exact ⟨e2, clean_error_of_time_error hd hds2 ht he2⟩

/-- Witness for the C3 amended theorem: both parts applied at concrete
tables with a garbage date and a garbage time respectively. -/
theorem c3_amended_parse_failure_raises_witness :
    (∃ e, clean_data (some ⟨[("Date", [Cell.str "31/02/2004"])]⟩) = .error e) ∧
    (∃ e, clean_data
      (some ⟨[("Date", [Cell.str "10/03/2004"]), ("Time", [Cell.str "18:00:00"])]⟩) =
        .error e) :=
  ⟨c3_amended_parse_failure_raises.1 _ [Cell.str "31/02/2004"] "31/02/2004"
      rfl (by decide) (by decide),
   c3_amended_parse_failure_raises.2 _ [Cell.str "10/03/2004"] [Cell.str "18:00:00"]
      "18:00:00" rfl (by decide) rfl (by decide) (by decide)⟩

/-- C9 counterexample.  On a table lacking the Time column whose Date
column contains a bad value, clean_data fails with a ValueError from the
date conversion, not with a KeyError: the failure the claim promises is
not always a KeyError. -/
theorem c9_not_always_keyerror_counterexample :
    clean_data (some c9_input) =
      .error (.valueError "time data x does not match format") ∧
    (PyError.valueError "time data x does not match format").isKeyError = false :=
  ⟨rfl, rfl⟩

/-- C9 amended.  A table lacking the Date column makes clean_data fail
with KeyError on Date.  A table having Date but lacking Time always
makes clean_data fail as well: with KeyError on Time when every Date
value converts, and otherwise with the date-conversion error.  In no
case does clean_data return a cleaned table: both columns are an
unstated precondition. -/
theorem c9_amended_missing_columns_fail :
    (∀ df : Frame, getCol df "Date" = none →
      clean_data (some df) = .error (.keyError "Date")) ∧
    (∀ (df : Frame) (ds : List Cell), getCol df "Date" = some ds →
      getCol df "Time" = none → ∃ e, clean_data (some df) = .error e) ∧
    (∀ (df : Frame) (ds : List Cell), getCol df "Date" = some ds →
      (∀ c ∈ ds, convOk (dateConvCell c) = true) → getCol df "Time" = none →
      clean_data (some df) = .error (.keyError "Time")) := by
  refine ⟨fun df hd => clean_error_keyDate hd, ?_, ?_⟩
  · intro df ds hd ht
    cases hm : mapCellsE dateConvCell (ds.map replaceCell) with
    | error e => exact ⟨e, clean_error_of_date_error hd hm⟩
    | ok ds2 => exact ⟨.keyError "Time", clean_error_keyTime hd hm ht⟩
  · intro df ds hd hok ht
    have hok2 : ∀ c ∈ ds.map replaceCell, (dateConvCell c).isOk := by
      intro c hc
      rcases List.mem_map.mp hc with ⟨c0, hc0, rfl⟩
      rw [replaceCell_eq_of_dateConv_ok (hok c0 hc0)]
      have h0 := hok c0 hc0
      cases hg : dateConvCell c0 with
      | ok c2 => rfl
      | error e => rw [hg] at h0; simp [convOk] at h0
    obtain ⟨ds2, hds2⟩ := mapCellsE_ok_of_forall hok2
    exact clean_error_keyTime hd hds2 ht

/-- Witness for the C9 amended theorem at concrete tables. -/
theorem c9_amended_missing_columns_fail_witness :
    (clean_data (some ⟨[("T", [Cell.num 5])]⟩) = .error (.keyError "Date")) ∧
    (∃ e, clean_data (some ⟨[("Date", [Cell.str "10/03/2004"])]⟩) = .error e) ∧
    (clean_data (some ⟨[("Date", [Cell.str "10/03/2004"])]⟩) =
      .error (.keyError "Time")) :=
  ⟨c9_amended_missing_columns_fail.1 _ rfl,
   c9_amended_missing_columns_fail.2.1 _ [Cell.str "10/03/2004"] rfl rfl,
   c9_amended_missing_columns_fail.2.2 _ [Cell.str "10/03/2004"] rfl (by decide) rfl⟩

/-- C7.  Every pipeline function taking a table short-circuits on the
absent table: clean_data, get_data_summary, calculate_air_quality_metrics
and get_daily_averages applied to None return an absent or empty result
(None, or the empty dict modelled as none) instead of failing. -/
theorem c7_none_short_circuit :
    clean_data none = .ok none ∧
    get_data_summary none = .ok none ∧
    calculate_air_quality_metrics none = none ∧
    get_daily_averages none = .ok none :=
  ⟨rfl, rfl, rfl, rfl⟩

/-- C8.  clean_data is pure with respect to its argument: the statement
sequence works on the copy df_clean only, so whenever it returns, the
original object df holds exactly the contents it had before the call,
and the returned table is the worked copy. -/
theorem c8_clean_no_mutation (df : Frame) (st : PyState)
    (h : runCleanSteps ⟨df, df⟩ = .ok st) :
    st.orig = df ∧ clean_data (some df) = .ok (some st.work) :=
  ⟨(runCleanSteps_ok_decomp h).1, by simp only [clean_data, h]⟩

/-- Witness for C8 at a concrete table. -/
theorem c8_clean_no_mutation_witness :
    c8_state.orig = c8_input ∧ clean_data (some c8_input) = .ok (some c8_state.work) :=
  c8_clean_no_mutation c8_input c8_state (by decide)

/-- Witness for C4 at a concrete cleaned table. -/
theorem c4_timestamp_iff_witness :
    ∃ dts ds ts, getCol c4_output "DateTime" = some dts ∧
      getCol c4_output "Date" = some ds ∧ getCol c4_output "Time" = some ts ∧
      ∀ (i : Nat) (dtc dc tc : Cell), dts[i]? = some dtc → ds[i]? = some dc →
        ts[i]? = some tc →
        ((∃ d t, dtc = Cell.datetime d t) ↔ (dc.notna = true ∧ tc.notna = true)) :=
  c4_timestamp_iff c4_input c4_output rfl

lemma seriesNums_nil_of_all_nan {cs : List Cell} (h : ∀ c ∈ cs, c = Cell.nan) :
    seriesNums cs = [] := by
  induction cs with
  | nil => rfl
  | cons a cs ih =>
      have ha := h a (List.mem_cons_self _ _)
      subst ha
      show seriesNums (Cell.nan :: cs) = []
      unfold seriesNums at *
      rw [List.filterMap_cons]
      exact ih (fun c hc => h c (List.mem_cons_of_mem _ hc))

lemma varStatsOf_all_nan {cs : List Cell} (h : seriesNums cs = []) :
    varStatsOf cs = ⟨none, none, none, none, none⟩ := by
  unfold varStatsOf
  rw [h]
  rfl

/-- C5.  For each tracked variable whose column is present but holds
only absent values, calculate_air_quality_metrics reports the variable
with all five statistics (mean, median, max, min, sample std) equal to
the not-available value, not zero and not an error. -/
theorem c5_all_absent_metrics (df : Frame) :
    (∀ cs, getCol df "CO(GT)" = some cs → (∀ c ∈ cs, c = Cell.nan) →
      ∃ m, calculate_air_quality_metrics (some df) = some m ∧
        m.co = some ⟨none, none, none, none, none⟩) ∧
    (∀ cs, getCol df "T" = some cs → (∀ c ∈ cs, c = Cell.nan) →
      ∃ m, calculate_air_quality_metrics (some df) = some m ∧
        m.temperature = some ⟨none, none, none, none, none⟩) ∧
    (∀ cs, getCol df "RH" = some cs → (∀ c ∈ cs, c = Cell.nan) →
      ∃ m, calculate_air_quality_metrics (some df) = some m ∧
        m.humidity = some ⟨none, none, none, none, none⟩) ∧
    (∀ cs, getCol df "AH" = some cs → (∀ c ∈ cs, c = Cell.nan) →
      ∃ m, calculate_air_quality_metrics (some df) = some m ∧
        m.absolute_humidity = some ⟨none, none, none, none, none⟩) := by
  refine ⟨?_, ?_, ?_, ?_⟩ <;>
    · intro cs hget hnan
      refine ⟨_, rfl, ?_⟩
      show Option.map varStatsOf (getCol df _) = some ⟨none, none, none, none, none⟩
      rw [hget, Option.map_some']
      rw [varStatsOf_all_nan (seriesNums_nil_of_all_nan hnan)]

/-- Witness for C5 at a concrete table. -/
theorem c5_all_absent_metrics_witness :
    (∃ m, calculate_air_quality_metrics (some c5_frame) = some m ∧
      m.co = some ⟨none, none, none, none, none⟩) ∧
    (∃ m, calculate_air_quality_metrics (some c5_frame) = some m ∧
      m.temperature = some ⟨none, none, none, none, none⟩) ∧
    (∃ m, calculate_air_quality_metrics (some c5_frame) = some m ∧
      m.humidity = some ⟨none, none, none, none, none⟩) ∧
    (∃ m, calculate_air_quality_metrics (some c5_frame) = some m ∧
      m.absolute_humidity = some ⟨none, none, none, none, none⟩) :=
  ⟨(c5_all_absent_metrics c5_frame).1 [Cell.nan] rfl (by decide),
   (c5_all_absent_metrics c5_frame).2.1 [Cell.nan] rfl (by decide),
   (c5_all_absent_metrics c5_frame).2.2.1 [Cell.nan] rfl (by decide),
   (c5_all_absent_metrics c5_frame).2.2.2 [Cell.nan] rfl (by decide)⟩

lemma mem_groupKeys {ds : List Cell} {d : Nat} :
    d ∈ groupKeys ds ↔ Cell.date d ∈ ds := by
  unfold groupKeys
  rw [Finset.mem_sort, List.mem_toFinset, List.mem_filterMap]
  constructor
  · rintro ⟨c, hc, hk⟩
    cases c with
    | date d2 =>
        simp only [dateKey, Option.some.injEq] at hk
        subst hk
        exact hc
    | str s => simp [dateKey] at hk
    | num q => simp [dateKey] at hk
    | nan => simp [dateKey] at hk
    | time t => simp [dateKey] at hk
    | datetime a b => simp [dateKey] at hk
  · intro h
    exact ⟨.date d, h, rfl⟩

lemma groupKeys_sorted (ds : List Cell) : List.Sorted (· < ·) (groupKeys ds) :=
  Finset.sort_sorted_lt _

/-- GroupBy.mean semantics of one group: the not-available cell when
every value in the group is absent, otherwise the mean of the
non-absent values. -/
lemma meanCell_spec (cs : List Cell) :
    meanCell cs = if seriesNums cs = [] then Cell.nan
      else Cell.num ((seriesNums cs).sum / (seriesNums cs).length) := by
  unfold meanCell listMean
  by_cases h : seriesNums cs = []
  · simp [h]
  · simp [h, List.isEmpty_iff]

/-- C6.  On any table with a Date column, get_daily_averages returns a
table whose Date column lists exactly the distinct non-absent dates in
strictly ascending order (so no row exists for the absent-date group),
and whose value for each numeric column at each date is the group mean:
the mean of the non-absent values of that column among the rows of that
date, the not-available cell when the group is entirely absent. -/
theorem c6_daily_averages_spec (df : Frame) (ds : List Cell)
    (hd : getCol df "Date" = some ds) :
    ∃ g, get_daily_averages (some df) = .ok (some g) ∧
      List.Sorted (· < ·) (groupKeys ds) ∧
      (∀ d, d ∈ groupKeys ds ↔ Cell.date d ∈ ds) ∧
      getCol g "Date" = some ((groupKeys ds).map Cell.date) ∧
      (∀ p ∈ numericCols df,
        (p.1, (groupKeys ds).map (fun d => meanCell (selectGroup ds p.2 d))) ∈
          g.cols) ∧
      (∀ cs2 : List Cell, meanCell cs2 =
        if seriesNums cs2 = [] then Cell.nan
        else Cell.num ((seriesNums cs2).sum / (seriesNums cs2).length)) := by
  refine ⟨⟨("Date", (groupKeys ds).map Cell.date) ::
      (numericCols df).map (fun p =>
        (p.1, (groupKeys ds).map (fun d => meanCell (selectGroup ds p.2 d))))⟩,
    by simp only [get_daily_averages, hd], groupKeys_sorted ds,
    fun d => mem_groupKeys, ?_, ?_, meanCell_spec⟩
  · simp [getCol, List.find?]
  · intro p hp
    exact List.mem_cons_of_mem _ (List.mem_map_of_mem _ hp)

/-- Witness for C6 at a concrete table. -/
theorem c6_daily_averages_spec_witness :
    ∃ g, get_daily_averages (some c6_frame) = .ok (some g) ∧
      List.Sorted (· < ·) (groupKeys [.date 20040311, .nan, .date 20040310]) ∧
      (∀ d, d ∈ groupKeys [.date 20040311, .nan, .date 20040310] ↔
        Cell.date d ∈ [Cell.date 20040311, Cell.nan, Cell.date 20040310]) ∧
      getCol g "Date" =
        some ((groupKeys [.date 20040311, .nan, .date 20040310]).map Cell.date) ∧
      (∀ p ∈ numericCols c6_frame,
        (p.1, (groupKeys [.date 20040311, .nan, .date 20040310]).map
          (fun d => meanCell
            (selectGroup [.date 20040311, .nan, .date 20040310] p.2 d))) ∈
          g.cols) ∧
      (∀ cs2 : List Cell, meanCell cs2 =
        if seriesNums cs2 = [] then Cell.nan
        else Cell.num ((seriesNums cs2).sum / (seriesNums cs2).length)) :=
  c6_daily_averages_spec c6_frame [.date 20040311, .nan, .date 20040310] rfl

lemma applyBoundFilter_orig {le : Bool} {st st2 : PyState} {b : Option String}
    (h : applyBoundFilter le st b = .ok st2) : st2.orig = st.orig := by
  unfold applyBoundFilter at h
  split at h
  · split at h
    · cases h
    · split at h
      · cases h
      · split at h
        · cases h
        · injection h with h1
          rw [← h1]
  · injection h with h1
    rw [← h1]

/-- C10.  filter_by_date_range with both bounds absent is the identity
up to copying: it returns a table equal to its input; and for every
choice of bounds, whenever the filter returns, the original object the
caller passed is unchanged (the function works on a copy). -/
theorem c10_filter_none_identity (df : Frame) :
    filter_by_date_range (some df) none none = .ok (some df) ∧
    ∀ (sd ed : Option String) (st : PyState),
      runFilterSteps df sd ed = .ok st → st.orig = df := by
  constructor
  · rfl
  · intro sd ed st h
    unfold runFilterSteps at h
    split at h
    · cases h
    · next st1 hA =>
        rw [applyBoundFilter_orig h, applyBoundFilter_orig hA]

/-- Witness for C10 at a concrete table and concrete bounds. -/
theorem c10_filter_none_identity_witness :
    filter_by_date_range (some c10_frame) none none = .ok (some c10_frame) ∧
    c10_state.orig = c10_frame :=
  ⟨(c10_filter_none_identity c10_frame).1,
   (c10_filter_none_identity c10_frame).2 (some "2004-03-10") none c10_state
     (by decide)⟩
